import Mathlib

/-!
Verification of the rcbus-midi-synthesizer core against its design notes.

The development shallowly embeds the C sources:
  - src/chips/ym2149.c        (PSG register driver, detection protocol)
  - src/core/synthesizer.c    (voice allocator)
  - src/core/chip_manager.c   (backend registry / selection)
  - src/midi/midi_driver.c    (MIDI byte-stream state machine, dispatcher)

Machine integers are modelled as Nat (unsigned) or Int (signed) with explicit
reductions mod 256 / mod 16 where the C code truncates.  The chip's register
file is modelled as a function from register index to the last value written
to it; reads return that value (a present, responding chip), matching the
read-back model the detection routine assumes.
-/

namespace RCSynth

/-- voice_t from include/chip_interface.h: per-voice state shared between the
backend and the allocator. -/
structure Voice where
  active : Bool
  midi_note : Nat
  velocity : Nat
  channel : Nat
  start_time : Nat
deriving Repr, DecidableEq

/-- An all-zero voice record, as produced by memset in ym2149_init. -/
def zeroVoice : Voice := ⟨false, 0, 0, 0, 0⟩

/-- ym2149_voice_extra_t from include/ym2149.h. -/
structure VoiceExtra where
  volume : Nat
  envelope_enabled : Bool
  envelope_shape : Nat
  frequency : Nat
deriving Repr, DecidableEq

/-- An all-zero extra record, as produced by memset in ym2149_init. -/
def zeroExtra : VoiceExtra := ⟨0, false, 0, 0⟩

/-- State of the YM2149 driver: the two voice arrays, the chip register file
(regs r = last value written to register r), the global note_counter used to
stamp start_time, and the CPU interrupt-enable flag toggled by detection. -/
structure YMState where
  voices : List Voice
  extra : List VoiceExtra
  regs : Nat → Nat
  note_counter : Nat
  int_enabled : Bool

/-- ym2149_write_register: latch the register index, then write the 8-bit
data value (the two-phase bus protocol collapses to a store in this model). -/
def ym2149_write_register (s : YMState) (reg data : Nat) : YMState :=
  { s with regs := Function.update s.regs reg (data % 256) }

/-- ym2149_read_register: on the RC2014 card the address port read returns the
latched register's value; with a chip present this is the last value written. -/
def ym2149_read_register (s : YMState) (reg : Nat) : Nat :=
  s.regs reg

/-- note_tp from ym2149_note_to_freq: tone periods for MIDI notes 24..96. -/
def note_tp : List Nat :=
  [3522, 3325, 3138, 2962, 2796, 2639, 2491, 2351,
   2219, 2095, 1977, 1866,
   1761, 1662, 1569, 1481, 1398, 1319, 1245, 1175,
   1109, 1047,  989,  933,
    881,  831,  784,  740,  699,  660,  623,  588,
    555,  524,  494,  467,
    440,  416,  392,  370,  349,  330,  311,  294,
    277,  262,  247,  233,
    220,  208,  196,  185,  175,  165,  156,  147,
    139,  131,  124,  117,
    110,  104,   98,   93,   87,   82,   78,   73,
     69,   65,   62,   58,
     55]

/-- ym2149_note_to_freq: clamp the MIDI note into [24, 96] and look up the
tone period. -/
def ym2149_note_to_freq (note : Nat) : Nat :=
  let n1 := if note < 24 then 24 else note
  let n2 := if n1 > 96 then 96 else n1
  note_tp.getD (n2 - 24) 0

/-- ym2149_apply_pitch_bend: result = base - (base * bend) / 72000 with C
truncating (toward-zero) division, clamped to [1, 4095]. -/
def ym2149_apply_pitch_bend (base : Nat) (bend : Int) : Nat :=
  let delta : Int := Int.tdiv ((base : Int) * bend) 72000
  let result : Int := (base : Int) - delta
  let r1 : Int := if result < 1 then 1 else result
  let r2 : Int := if r1 > 4095 then 4095 else r1
  r2.toNat

/-- ym2149_set_frequency: write the 12-bit tone period of a voice to its
frequency register pair (low byte, then high nibble). -/
def ym2149_set_frequency (s : YMState) (voice freq : Nat) : YMState :=
  if 3 ≤ voice then s else
  let s1 := ym2149_write_register s (voice * 2) (freq % 256)
  ym2149_write_register s1 (voice * 2 + 1) (freq / 256 % 16)

/-- ym2149_set_volume: record the requested volume, clamp the written value to
15, and rewrite the level register with the envelope-mode bit taken from the
voice's envelope_enabled flag. -/
def ym2149_set_volume (s : YMState) (voice volume : Nat) : YMState :=
  if 3 ≤ voice then s else
  let vx := { s.extra.getD voice zeroExtra with volume := volume }
  let s1 := { s with extra := s.extra.set voice vx }
  let vol := if volume > 15 then 15 else volume
  let reg_val := if vx.envelope_enabled then vol ||| 16 else vol
  ym2149_write_register s1 (8 + voice) reg_val

/-- ym2149_note_off: clear the active flag and zero the level register. -/
def ym2149_note_off (s : YMState) (voice : Nat) : YMState :=
  if 3 ≤ voice then s else
  let v := s.voices.getD voice zeroVoice
  let s1 := { s with voices := s.voices.set voice { v with active := false } }
  ym2149_write_register s1 (8 + voice) 0

/-- ym2149_note_on: store the note data, stamp start_time from the global
counter, program the frequency pair, and set the velocity-scaled volume. -/
def ym2149_note_on (s : YMState) (voice note velocity channel : Nat) : YMState :=
  if 3 ≤ voice then s else
  let v : Voice :=
    { active := true, midi_note := note, velocity := velocity,
      channel := channel, start_time := s.note_counter }
  let s1 := { s with voices := s.voices.set voice v,
                     note_counter := s.note_counter + 1 }
  let freq := ym2149_note_to_freq note
  let vx := { s1.extra.getD voice zeroExtra with frequency := freq }
  let s2 := { s1 with extra := s1.extra.set voice vx }
  let s3 := ym2149_set_frequency s2 voice freq
  ym2149_set_volume s3 voice (velocity * 15 / 127)

/-- ym2149_set_attack: map 0-127 to the 8-bit envelope frequency, write both
envelope-frequency registers, and switch the voice into envelope mode. -/
def ym2149_set_attack (s : YMState) (voice attack : Nat) : YMState :=
  if 3 ≤ voice then s else
  let env_freq := attack * 255 / 127
  let s1 := ym2149_write_register s 11 (env_freq % 256)
  let s2 := ym2149_write_register s1 12 (env_freq / 256 % 256)
  let vx := s2.extra.getD voice zeroExtra
  let s3 := { s2 with extra := s2.extra.set voice { vx with envelope_enabled := true } }
  ym2149_write_register s3 (8 + voice) (16 ||| vx.volume)

/-- ym2149_set_decay: binary-quantized envelope shape choice (> 64 selects the
triangle-with-decay shape 0x06, else plain triangle 0x02). -/
def ym2149_set_decay (s : YMState) (voice decay : Nat) : YMState :=
  if 3 ≤ voice then s else
  let shape := if decay > 64 then 6 else 2
  let vx := s.extra.getD voice zeroExtra
  let s1 := { s with extra := s.extra.set voice { vx with envelope_shape := shape } }
  ym2149_write_register s1 13 shape

/-- ym2149_set_sustain: reinterpreted as a volume set (0-127 mapped to 0-15). -/
def ym2149_set_sustain (s : YMState) (voice sustain : Nat) : YMState :=
  if 3 ≤ voice then s else
  ym2149_set_volume s voice (sustain * 15 / 127)

/-- ym2149_set_release: rewrite the shared envelope-frequency register pair. -/
def ym2149_set_release (s : YMState) (voice release : Nat) : YMState :=
  if 3 ≤ voice then s else
  let env_freq := release * 255 / 127
  let s1 := ym2149_write_register s 11 (env_freq % 256)
  ym2149_write_register s1 12 (env_freq / 256 % 256)

/-- Loop body of ym2149_set_pitch_bend for one voice index: when the voice is
active, recompute the base period from its stored note and program the bent
period. -/
def pitch_bend_voice (s : YMState) (bend : Int) (i : Nat) : YMState :=
  let v := s.voices.getD i zeroVoice
  if v.active then
    let base_freq := ym2149_note_to_freq v.midi_note
    ym2149_set_frequency s i (ym2149_apply_pitch_bend base_freq bend)
  else s

/-- ym2149_set_pitch_bend: apply the bend to every active voice (indices 0..2). -/
def ym2149_set_pitch_bend (s : YMState) (bend : Int) : YMState :=
  pitch_bend_voice (pitch_bend_voice (pitch_bend_voice s bend 0) bend 1) bend 2

/-- ym2149_set_preset: canned envelope shapes for programs 0..3; others ignored. -/
def ym2149_set_preset (s : YMState) (preset : Nat) : YMState :=
  if preset = 0 then ym2149_write_register s 13 0
  else if preset = 1 then ym2149_write_register s 13 3
  else if preset = 2 then ym2149_write_register s 13 2
  else if preset = 3 then ym2149_write_register s 13 7
  else s

/-- ym2149_all_off: note_off on each of the three voices. -/
def ym2149_all_off (s : YMState) : YMState :=
  ym2149_note_off (ym2149_note_off (ym2149_note_off s 0) 1) 2

/-- ym2149_reset: zero registers 0..13 then disable the mixer outright. -/
def ym2149_reset (s : YMState) : YMState :=
  let s1 := (List.range 14).foldl (fun t r => ym2149_write_register t r 0) s
  ym2149_write_register s1 7 0x3F

/-- ym2149_init: clear the voice arrays, reset the chip, then program the
default mixer, level and noise registers. -/
def ym2149_init (s : YMState) : YMState :=
  let s1 := { s with voices := List.replicate 3 zeroVoice,
                     extra := List.replicate 3 zeroExtra }
  let s2 := ym2149_reset s1
  let s3 := ym2149_write_register s2 7 0x38
  let s4 := ym2149_write_register s3 8 0x0F
  let s5 := ym2149_write_register s4 9 0x0F
  let s6 := ym2149_write_register s5 10 0x0F
  ym2149_write_register s6 6 0x1F

/-- Stealing scan of allocate_voice (synthesizer.c): starting from the current
best (index, start_time) pair and the index of the next element, keep the
first strictly smaller start_time seen. -/
def oldestAux : List Voice → Nat × Nat → Nat → Nat × Nat
  | [], acc, _ => acc
  | v :: rest, (best, btime), idx =>
    if v.start_time < btime then oldestAux rest (idx, v.start_time) (idx + 1)
    else oldestAux rest (best, btime) (idx + 1)

/-- allocate_voice: first inactive index in ascending order, else the index of
the oldest start_time (ties to the lowest index); 255 encodes the C sentinel
0xFF returned when the pool is empty. -/
def allocate_voice (voices : List Voice) : Nat :=
  match voices.findIdx? (fun v => !v.active) with
  | some i => i
  | none =>
    match voices with
    | [] => 255
    | v0 :: rest => (oldestAux rest (0, v0.start_time) 1).1

/-- Scan of find_voice_by_note, carrying the index of the head element. -/
def findVoiceAux : List Voice → Nat → Nat → Nat → Nat
  | [], _, _, _ => 255
  | v :: rest, note, ch, i =>
    if v.active && (v.midi_note == note) && (v.channel == ch) then i
    else findVoiceAux rest note ch (i + 1)

/-- find_voice_by_note: index of the first active voice whose stored note and
channel match; 255 encodes the C sentinel 0xFF (not found). -/
def find_voice_by_note (voices : List Voice) (note ch : Nat) : Nat :=
  findVoiceAux voices note ch 0

/-- midi_state_t from include/midi_driver.h: the running-status state machine
of the byte-stream reader. -/
structure MidiState where
  status : Nat
  channel : Nat
  command : Nat
  data1 : Nat
  data2 : Nat
  expected_bytes : Nat
  byte_count : Nat
deriving Repr, DecidableEq

/-- midi_driver_init zeroes every field of midi_state. -/
def midi_reset_state : MidiState := ⟨0, 0, 0, 0, 0, 0, 0⟩

/-- midi_process_byte: one transition of the state machine.  The second
component is the (status, data1, data2) triple handed to midi_process_message
when the byte completes a message, i.e. the emitted event. -/
def midi_process_byte (ps : MidiState) (b : Nat) : MidiState × Option (Nat × Nat × Nat) :=
  if 0xF8 ≤ b then (ps, none)
  else if 0x80 ≤ b then
    if 0xF0 ≤ b then
      ({ ps with status := 0, byte_count := 0, expected_bytes := 0 }, none)
    else
      let cmd := b &&& 0xF0
      let expected :=
        if cmd = 0x80 ∨ cmd = 0x90 ∨ cmd = 0xB0 ∨ cmd = 0xE0 then 2
        else if cmd = 0xC0 then 1
        else 0
      ({ ps with status := b, channel := b &&& 0x0F, command := cmd,
                 byte_count := 0, expected_bytes := expected }, none)
  else if ps.status ≠ 0 then
    let bc := ps.byte_count + 1
    let ps1 := { ps with byte_count := bc }
    let ps2 :=
      if bc = 1 then { ps1 with data1 := b }
      else if bc = 2 then { ps1 with data2 := b }
      else ps1
    if ps2.expected_bytes ≤ ps2.byte_count then
      ({ ps2 with byte_count := 0 }, some (ps2.status, ps2.data1, ps2.data2))
    else (ps2, none)
  else (ps, none)

/-- Feed a list of bytes through midi_process_byte, collecting every emitted
(status, data1, data2) message in order. -/
def processBytes (ps : MidiState) : List Nat → MidiState × List (Nat × Nat × Nat)
  | [] => (ps, [])
  | b :: rest =>
    let r1 := midi_process_byte ps b
    let r2 := processBytes r1.1 rest
    (r2.1, r1.2.toList ++ r2.2)

/-- Dispatcher state: the YM2149 backend (the active chip) plus the values of
the twelve midi_cc_controls entries (CC numbers 1..12 at indices 0..11). -/
structure DispatchState where
  ym : YMState
  cc_values : List Nat

/-- Index of the first active voice, as scanned by the CC handlers. -/
def firstActive (voices : List Voice) : Option Nat :=
  voices.findIdx? (fun v => v.active)

/-- MIDI_CONTROL_CHANGE handling in midi_process_message: record the CC value,
then apply the control to the current chip.  CC 1-4 set the volume of the
first active voice; 5-8 the envelope parameters of the first active voice;
9, 10 and 12 hit the vibrato/tremolo/modulation no-ops; 11 maps to a pitch
bend of ((value - 64) * 128). -/
def applyCC (d : DispatchState) (data1 data2 : Nat) : DispatchState :=
  let d1 :=
    if 1 ≤ data1 ∧ data1 ≤ 12 then
      { d with cc_values := d.cc_values.set (data1 - 1) data2 }
    else d
  if data1 = 1 ∨ data1 = 2 ∨ data1 = 3 ∨ data1 = 4 then
    match firstActive d1.ym.voices with
    | some i => { d1 with ym := ym2149_set_volume d1.ym i (data2 * 15 / 127) }
    | none => d1
  else if data1 = 5 then
    match firstActive d1.ym.voices with
    | some i => { d1 with ym := ym2149_set_attack d1.ym i data2 }
    | none => d1
  else if data1 = 6 then
    match firstActive d1.ym.voices with
    | some i => { d1 with ym := ym2149_set_decay d1.ym i data2 }
    | none => d1
  else if data1 = 7 then
    match firstActive d1.ym.voices with
    | some i => { d1 with ym := ym2149_set_sustain d1.ym i data2 }
    | none => d1
  else if data1 = 8 then
    match firstActive d1.ym.voices with
    | some i => { d1 with ym := ym2149_set_release d1.ym i data2 }
    | none => d1
  else if data1 = 11 then
    { d1 with ym := ym2149_set_pitch_bend d1.ym (((data2 : Int) - 64) * 128) }
  else d1

/-- midi_process_message with the YM2149 selected as the current chip: route a
complete (status, data1, data2) message to the backend.  A note-on with
velocity 0 follows the note-off path; commands other than note-on, note-off,
control-change, program-change and pitch-bend fall through the switch. -/
def midi_process_message (d : DispatchState) (status data1 data2 : Nat) : DispatchState :=
  let channel := status &&& 0x0F
  let command := status &&& 0xF0
  if command = 0x90 then
    if data2 = 0 then
      let voice := find_voice_by_note d.ym.voices data1 channel
      if voice ≠ 255 then { d with ym := ym2149_note_off d.ym voice } else d
    else
      let voice := allocate_voice d.ym.voices
      if voice ≠ 255 then { d with ym := ym2149_note_on d.ym voice data1 data2 channel } else d
  else if command = 0x80 then
    let voice := find_voice_by_note d.ym.voices data1 channel
    if voice ≠ 255 then { d with ym := ym2149_note_off d.ym voice } else d
  else if command = 0xB0 then applyCC d data1 data2
  else if command = 0xC0 then { d with ym := ym2149_set_preset d.ym data1 }
  else if command = 0xE0 then
    { d with ym := ym2149_set_pitch_bend d.ym ((((data2 <<< 7) ||| data1 : Nat) : Int) - 8192) }
  else d

/-- Fold a list of complete messages through the dispatcher. -/
def applyMessages (d : DispatchState) : List (Nat × Nat × Nat) → DispatchState
  | [] => d
  | (st, d1, d2) :: rest => applyMessages (midi_process_message d st d1 d2) rest

/-- A YMState whose registers, counters and voice arrays are all zero and with
interrupts enabled: the situation before ym2149_init runs. -/
def blankYM : YMState :=
  { voices := List.replicate 3 zeroVoice, extra := List.replicate 3 zeroExtra,
    regs := fun _ => 0, note_counter := 0, int_enabled := true }

/-- The dispatcher state after system startup: ym2149_init has run and no
voice is active. -/
def initialState : DispatchState :=
  { ym := ym2149_init blankYM, cc_values := List.replicate 12 0 }

/-- Chip-manager state: current_chip (0 = none, 1 = YM2149, 2 = OPL3), the
detected-chip bitmask, and the YM2149 backend state reached through the
all_off / init calls a switch performs. -/
structure MgrState where
  current_chip : Nat
  available_chips : Nat
  ym : YMState

/-- chip_manager_set_chip: silence the outgoing chip, then switch only when
the requested chip is known and detected; the result component is the C
return value (1 success, 0 failure). -/
def chip_manager_set_chip (m : MgrState) (chip_id : Nat) : MgrState × Nat :=
  let m1 := if m.current_chip = 1 then { m with ym := ym2149_all_off m.ym } else m
  if chip_id = 1 then
    if m1.available_chips &&& 1 ≠ 0 then
      ({ m1 with current_chip := 1, ym := ym2149_init m1.ym }, 1)
    else (m1, 0)
  else (m1, 0)

/-- One write/read/compare pass of detect_ym2149 over a list of test patterns
against one register, comparing only the bits in the mask and aborting on the
first mismatch (writes already performed stay performed). -/
def detect_test_loop (reg mask : Nat) : YMState → List Nat → YMState × Bool
  | s, [] => (s, true)
  | s, v :: vs =>
    let s1 := ym2149_write_register s reg v
    let rb := ym2149_read_register s1 reg
    if rb &&& mask = v &&& mask then detect_test_loop reg mask s1 vs
    else (s1, false)

/-- detect_ym2149 (ym2149.c): with interrupts masked, checkpoint the mixer and
two level registers, run the mixer / level / frequency write-read tests, then
restore the three checkpointed registers and re-enable interrupts.  The Bool
is detection_passed. -/
def detect_ym2149 (s : YMState) : YMState × Bool :=
  let s0 := { s with int_enabled := false }
  let orig_mixer := ym2149_read_register s0 7
  let orig_level_a := ym2149_read_register s0 8
  let orig_level_b := ym2149_read_register s0 9
  let r1 := detect_test_loop 7 0x3F s0 [0x00, 0x55, 0xAA, 0xFF]
  let r2 := if r1.2 then detect_test_loop 8 0x0F r1.1 [0x00, 0x55, 0xAA, 0xFF] else r1
  let r3 :=
    if r2.2 then
      let sA := ym2149_write_register r2.1 0 0x42
      (sA, ym2149_read_register sA 0 == 0x42)
    else r2
  let s4 := ym2149_write_register r3.1 7 orig_mixer
  let s5 := ym2149_write_register s4 8 orig_level_a
  let s6 := ym2149_write_register s5 9 orig_level_b
  ({ s6 with int_enabled := true }, r3.2)

/-- The 12-bit tone period a voice's frequency register pair currently holds. -/
def programmed_period (s : YMState) (v : Nat) : Nat :=
  s.regs (v * 2) + 256 * s.regs (v * 2 + 1)

/-- The match test of find_voice_by_note: active with the given stored note
and channel. -/
def voice_matches (v : Voice) (note ch : Nat) : Bool :=
  v.active && (v.midi_note == note) && (v.channel == ch)

/-- Number of active voices matching a (note, channel) pair. -/
def count_active_matches (voices : List Voice) (note ch : Nat) : Nat :=
  (voices.filter (fun v => voice_matches v note ch)).length

/-! ### Helper lemmas -/

lemma getD_set_self {α : Type _} (l : List α) (i : Nat) (a d : α) (h : i < l.length) :
    (l.set i a).getD i d = a := by
  simp [List.getD_eq_getElem?_getD, List.getElem?_set_self h]

lemma getD_set_ne {α : Type _} (l : List α) (i j : Nat) (a d : α) (h : i ≠ j) :
    (l.set i a).getD j d = l.getD j d := by
  simp [List.getD_eq_getElem?_getD, List.getElem?_set_ne h]

/-! ### Claim theorems -/

/-- Claim C1: from the reset parser state the bytes 0x90, 0x3C, 0x40 emit the
single message NoteOn (status 0x90, note 60, velocity 64, channel 0), the
running status 0x90 is retained with the received count reset to 0, the
further bytes 0x3C, 0x00 emit the single message NoteOn with velocity 0, and
the dispatcher handles that velocity-0 note-on exactly as NoteOff for note 60
channel 0, releasing the voice found by find_voice_by_note. -/
theorem claim1_noteon_running_status :
    (processBytes midi_reset_state [0x90, 0x3C, 0x40]).2 = [(0x90, 0x3C, 0x40)] ∧
    (processBytes midi_reset_state [0x90, 0x3C, 0x40]).1.status = 0x90 ∧
    (processBytes midi_reset_state [0x90, 0x3C, 0x40]).1.byte_count = 0 ∧
    (processBytes (processBytes midi_reset_state [0x90, 0x3C, 0x40]).1 [0x3C, 0x00]).2
        = [(0x90, 0x3C, 0x00)] ∧
    ∀ d : DispatchState,
      midi_process_message d 0x90 0x3C 0 = midi_process_message d 0x80 0x3C 0 ∧
      midi_process_message d 0x90 0x3C 0 =
        (if find_voice_by_note d.ym.voices 0x3C 0 ≠ 255 then
          { d with ym := ym2149_note_off d.ym (find_voice_by_note d.ym.voices 0x3C 0) }
         else d) := by
  refine ⟨by decide, by decide, by decide, by decide, fun d => ⟨rfl, rfl⟩⟩

/-- Claim C10: every per-voice PSG operation called with a voice index of 3 or
more is a total no-op: nothing in the driver state (voice records, registers,
counters) changes. -/
theorem claim10_voice_index_guard (s : YMState) (v note vel ch x f : Nat) (hv : 3 ≤ v) :
    ym2149_note_on s v note vel ch = s ∧
    ym2149_note_off s v = s ∧
    ym2149_set_volume s v x = s ∧
    ym2149_set_frequency s v f = s ∧
    ym2149_set_attack s v x = s ∧
    ym2149_set_decay s v x = s ∧
    ym2149_set_sustain s v x = s ∧
    ym2149_set_release s v x = s := by
  refine ⟨?_, ?_, ?_, ?_, ?_, ?_, ?_, ?_⟩ <;>
    simp [ym2149_note_on, ym2149_note_off, ym2149_set_volume, ym2149_set_frequency,
          ym2149_set_attack, ym2149_set_decay, ym2149_set_sustain, ym2149_set_release, hv]

/-- Witness for claim C10 at voice index 3 on the startup state. -/
theorem claim10_witness :
    ym2149_note_on blankYM 3 60 100 0 = blankYM ∧
    ym2149_note_off blankYM 3 = blankYM ∧
    ym2149_set_volume blankYM 3 64 = blankYM ∧
    ym2149_set_frequency blankYM 3 440 = blankYM ∧
    ym2149_set_attack blankYM 3 64 = blankYM ∧
    ym2149_set_decay blankYM 3 64 = blankYM ∧
    ym2149_set_sustain blankYM 3 64 = blankYM ∧
    ym2149_set_release blankYM 3 64 = blankYM :=
  claim10_voice_index_guard blankYM 3 60 100 0 64 440 (by decide)

/-- Claim C4: the detection routine is not side-effect-free.  On a present,
responding chip whose registers all read 0, detection succeeds, the three
checkpointed registers (mixer 7, levels 8 and 9) are restored and interrupts
are re-enabled — but the channel A frequency low register (register 0),
written with the sentinel 0x42 during test 3, is left at 0x42 instead of its
pre-test value 0. -/
theorem claim4_detect_leaves_sentinel :
    (detect_ym2149 blankYM).2 = true ∧
    (detect_ym2149 blankYM).1.int_enabled = true ∧
    (detect_ym2149 blankYM).1.regs 7 = blankYM.regs 7 ∧
    (detect_ym2149 blankYM).1.regs 8 = blankYM.regs 8 ∧
    (detect_ym2149 blankYM).1.regs 9 = blankYM.regs 9 ∧
    blankYM.regs 0 = 0 ∧
    (detect_ym2149 blankYM).1.regs 0 = 0x42 := by
  decide

/-- Claim C5 counterexample: feeding the unknown-command status byte 0xA0
(polyphonic aftertouch) and then the data byte 0x40 from the reset parser
state does produce a call into message dispatch — the expected count is 0, so
the very first data byte satisfies the completion test and the triple
(0xA0, 0x40, 0) is handed to midi_process_message, contradicting the claim
that no dispatch call occurs while such a status is running. -/
theorem claim5_counterexample :
    (midi_process_byte midi_reset_state 0xA0).1.expected_bytes = 0 ∧
    (processBytes midi_reset_state [0xA0, 0x40]).2 = [(0xA0, 0x40, 0)] ∧
    (processBytes midi_reset_state [0xA0, 0x40]).2 ≠ [] := by
  decide

/-- Claim C5 as amended: for a channel-voice status byte whose command nibble
is not note-on, note-off, control-change, program-change or pitch-bend, the
reader sets the expected data-byte count to 0 and emits nothing for the
status byte itself; each data byte received while that status is running does
invoke message dispatch with the unknown status, but such a dispatch matches
no command case and leaves the dispatcher state completely unchanged. -/
theorem claim5_unknown_status (ps : MidiState) (status : Nat)
    (h1 : 0x80 ≤ status) (h2 : status < 0xF0)
    (h3 : status &&& 0xF0 ≠ 0x80) (h4 : status &&& 0xF0 ≠ 0x90)
    (h5 : status &&& 0xF0 ≠ 0xB0) (h6 : status &&& 0xF0 ≠ 0xC0)
    (h7 : status &&& 0xF0 ≠ 0xE0) :
    ((midi_process_byte ps status).1.expected_bytes = 0 ∧
     (midi_process_byte ps status).2 = none) ∧
    (∀ b, b < 0x80 →
      (midi_process_byte (midi_process_byte ps status).1 b).2 = some (status, b, ps.data2)) ∧
    (∀ d x y, midi_process_message d status x y = d) := by
  have hA : ¬ (0xF8 ≤ status) := by omega
  have hB : ¬ (0xF0 ≤ status) := by omega
  refine ⟨?_, ?_, ?_⟩
  · simp [midi_process_byte, hA, h1, hB, h3, h4, h5, h6, h7]
  · intro b hb
    have hb1 : ¬ (0xF8 ≤ b) := by omega
    have hb2 : ¬ (0x80 ≤ b) := by omega
    have hs : status ≠ 0 := by omega
    simp [midi_process_byte, hA, h1, hB, h3, h4, h5, h6, h7, hb1, hb2, hs]
  · intro d x y
    simp [midi_process_message, h3, h4, h5, h6, h7]

/-- Witness for the amended claim C5 at the concrete status byte 0xA0. -/
theorem claim5_witness :
    ((midi_process_byte midi_reset_state 0xA0).1.expected_bytes = 0 ∧
     (midi_process_byte midi_reset_state 0xA0).2 = none) ∧
    midi_process_message initialState 0xA0 60 64 = initialState := by
  have h := claim5_unknown_status midi_reset_state 0xA0 (by decide) (by decide)
    (by decide) (by decide) (by decide) (by decide) (by decide)
  exact ⟨h.1, h.2.2 initialState 60 64⟩

/-- Claim C9: requesting a backend kind that is undetected (its bit is clear
in the detected-chip set) or unknown (not one of the two known kinds) makes
chip_manager_set_chip return 0 and leaves the active-backend reference
exactly as it was. -/
theorem claim9_selection_failure (m : MgrState) (cid : Nat)
    (h : (cid = 1 ∧ m.available_chips &&& 1 = 0) ∨
         (cid = 2 ∧ m.available_chips &&& 2 = 0) ∨
         (cid ≠ 1 ∧ cid ≠ 2)) :
    (chip_manager_set_chip m cid).2 = 0 ∧
    (chip_manager_set_chip m cid).1.current_chip = m.current_chip := by
  unfold chip_manager_set_chip
  rcases h with ⟨h1, h2⟩ | ⟨h1, h2⟩ | ⟨h1, h2⟩ <;>
    by_cases hcur : m.current_chip = 1 <;>
    simp_all

/-- Witness for claim C9: selecting the YM2149 while it is not in the
detected set fails and keeps the previously active backend. -/
theorem claim9_witness :
    (chip_manager_set_chip ⟨1, 0, blankYM⟩ 1).2 = 0 ∧
    (chip_manager_set_chip ⟨1, 0, blankYM⟩ 1).1.current_chip = 1 :=
  claim9_selection_failure ⟨1, 0, blankYM⟩ 1 (Or.inl ⟨rfl, by decide⟩)

lemma lor_sixteen (a : Nat) (h : a ≤ 15) : a ||| 16 = a + 16 := by
  interval_cases a <;> rfl

lemma testBit_four_lt (a : Nat) (h : a ≤ 15) : a.testBit 4 = false := by
  interval_cases a <;> rfl

lemma testBit_four_add (a : Nat) (h : a ≤ 15) : (a + 16).testBit 4 = true := by
  interval_cases a <;> rfl

/-- Claim C7: for every voice below 3 and requested value, set_volume writes
the level register with the volume clamped to at most 15 in the low nibble
and the envelope-mode bit (bit 4) equal to the voice's envelope-mode flag,
which itself is left unchanged; in particular a request of 200 programs
volume 15. -/
theorem claim7_set_volume (s : YMState) (v x : Nat) (hv : v < 3) :
    (ym2149_set_volume s v x).regs (8 + v) % 16 = min x 15 ∧
    ((ym2149_set_volume s v x).regs (8 + v)).testBit 4
        = (s.extra.getD v zeroExtra).envelope_enabled ∧
    ((ym2149_set_volume s v x).extra.getD v zeroExtra).envelope_enabled
        = (s.extra.getD v zeroExtra).envelope_enabled ∧
    (x = 200 → (ym2149_set_volume s v x).regs (8 + v) % 16 = 15) := by
  have hv3 : ¬ (3 ≤ v) := by omega
  have henv : ((ym2149_set_volume s v x).extra.getD v zeroExtra).envelope_enabled
      = (s.extra.getD v zeroExtra).envelope_enabled := by
    simp only [ym2149_set_volume, if_neg hv3, ym2149_write_register]
    by_cases hlen : v < s.extra.length
    · simp [List.getD_eq_getElem?_getD, List.getElem?_set_self hlen]
    · rw [List.set_eq_of_length_le (Nat.le_of_not_lt hlen)]
  have h1 : (if x > 15 then 15 else x) = min x 15 := by
    rcases le_or_lt x 15 with h | h
    · rw [if_neg (by omega), Nat.min_eq_left h]
    · rw [if_pos (by omega), Nat.min_eq_right (by omega)]
  have h2 : min x 15 ≤ 15 := by omega
  have hreg : (ym2149_set_volume s v x).regs (8 + v)
      = (if (s.extra.getD v zeroExtra).envelope_enabled then min x 15 + 16
         else min x 15) := by
    simp only [ym2149_set_volume, if_neg hv3, ym2149_write_register, h1]
    cases he : (s.extra.getD v zeroExtra).envelope_enabled
    · simp only [he, Bool.false_eq_true, if_false, Function.update_same]
      exact Nat.mod_eq_of_lt (lt_of_le_of_lt h2 (by norm_num))
    · simp only [he, if_true, Function.update_same]
      rw [lor_sixteen _ h2]
      exact Nat.mod_eq_of_lt (lt_of_le_of_lt (Nat.add_le_add_right h2 16) (by norm_num))
  refine ⟨?_, ?_, henv, ?_⟩
  · rw [hreg]; split <;> omega
  · rw [hreg]
    cases he : (s.extra.getD v zeroExtra).envelope_enabled
    · simp only [he, Bool.false_eq_true, if_false]
      exact testBit_four_lt _ h2
    · simp only [he, if_true]
      exact testBit_four_add _ h2
  · intro hx; subst hx; rw [hreg]; split <;> omega

/-- Witness for claim C7 on the startup state at voice 0 with value 200. -/
theorem claim7_witness :
    (ym2149_set_volume (ym2149_init blankYM) 0 200).regs 8 % 16 = min 200 15 ∧
    ((ym2149_set_volume (ym2149_init blankYM) 0 200).regs 8).testBit 4
        = ((ym2149_init blankYM).extra.getD 0 zeroExtra).envelope_enabled ∧
    ((ym2149_set_volume (ym2149_init blankYM) 0 200).extra.getD 0 zeroExtra).envelope_enabled
        = ((ym2149_init blankYM).extra.getD 0 zeroExtra).envelope_enabled ∧
    (200 = 200 → (ym2149_set_volume (ym2149_init blankYM) 0 200).regs 8 % 16 = 15) :=
  claim7_set_volume (ym2149_init blankYM) 0 200 (by decide)

lemma tp_step : ∀ k, k < 72 → note_tp.getD (k + 1) 0 ≤ note_tp.getD k 0 := by decide

lemma tp_mono : ∀ d i, i + d ≤ 72 → note_tp.getD (i + d) 0 ≤ note_tp.getD i 0 := by
  intro d
  induction d with
  | zero => intro i _; exact le_refl _
  | succ n ih =>
    intro i h
    calc note_tp.getD (i + (n + 1)) 0 = note_tp.getD ((i + n) + 1) 0 := by
          rw [show i + (n + 1) = (i + n) + 1 by omega]
      _ ≤ note_tp.getD (i + n) 0 := tp_step _ (by omega)
      _ ≤ note_tp.getD i 0 := ih i (by omega)

/-- Claim C8: the MIDI-note-to-tone-period conversion is monotonically
non-increasing: for all notes n1 and n2 with n1 at most n2 (out-of-range
notes clamped into [24, 96]), the period of n2 is at most the period of n1. -/
theorem claim8_period_monotone (n1 n2 : Nat) (h : n1 ≤ n2) :
    ym2149_note_to_freq n2 ≤ ym2149_note_to_freq n1 := by
  simp only [ym2149_note_to_freq]
  have e1le : ((if (if n1 < 24 then 24 else n1) > 96 then 96 else (if n1 < 24 then 24 else n1)) - 24)
      ≤ ((if (if n2 < 24 then 24 else n2) > 96 then 96 else (if n2 < 24 then 24 else n2)) - 24) := by
    split_ifs <;> omega
  have e2le : ((if (if n2 < 24 then 24 else n2) > 96 then 96 else (if n2 < 24 then 24 else n2)) - 24)
      ≤ 72 := by
    split_ifs <;> omega
  obtain ⟨d, hd⟩ : ∃ d,
      ((if (if n2 < 24 then 24 else n2) > 96 then 96 else (if n2 < 24 then 24 else n2)) - 24)
        = ((if (if n1 < 24 then 24 else n1) > 96 then 96 else (if n1 < 24 then 24 else n1)) - 24) + d :=
    ⟨_, (Nat.add_sub_cancel' e1le).symm⟩
  rw [hd]
  exact tp_mono d _ (by omega)

/-- Witness for claim C8 at the concrete notes 60 and 72. -/
theorem claim8_witness : ym2149_note_to_freq 72 ≤ ym2149_note_to_freq 60 :=
  claim8_period_monotone 60 72 (by decide)

lemma apb_range (base : Nat) (bend : Int) :
    1 ≤ ym2149_apply_pitch_bend base bend ∧ ym2149_apply_pitch_bend base bend ≤ 4095 := by
  simp only [ym2149_apply_pitch_bend]
  split_ifs <;> omega

lemma apb_zero (base : Nat) (h1 : 1 ≤ base) (h2 : base ≤ 4095) :
    ym2149_apply_pitch_bend base 0 = base := by
  simp only [ym2149_apply_pitch_bend, mul_zero, Int.zero_tdiv, sub_zero]
  rw [if_neg (by omega), if_neg (by omega)]
  exact Int.toNat_natCast base

lemma ntf_range (n : Nat) : 55 ≤ ym2149_note_to_freq n ∧ ym2149_note_to_freq n ≤ 3522 := by
  have key : ∀ k, k ≤ 72 → 55 ≤ note_tp.getD k 0 ∧ note_tp.getD k 0 ≤ 3522 := by decide
  simp only [ym2149_note_to_freq]
  exact key _ (by split_ifs <;> omega)

lemma set_frequency_voices (s : YMState) (voice freq : Nat) :
    (ym2149_set_frequency s voice freq).voices = s.voices := by
  simp only [ym2149_set_frequency, ym2149_write_register]
  split <;> rfl

lemma set_frequency_regs_ne (s : YMState) (voice freq k : Nat)
    (h1 : k ≠ voice * 2) (h2 : k ≠ voice * 2 + 1) :
    (ym2149_set_frequency s voice freq).regs k = s.regs k := by
  simp only [ym2149_set_frequency, ym2149_write_register]
  split
  · rfl
  · simp [Function.update_noteq h2, Function.update_noteq h1]

lemma set_frequency_programmed (s : YMState) (voice freq : Nat)
    (hv : voice < 3) (hf : freq < 4096) :
    programmed_period (ym2149_set_frequency s voice freq) voice = freq := by
  simp only [programmed_period, ym2149_set_frequency, ym2149_write_register,
    if_neg (show ¬ (3 ≤ voice) by omega)]
  rw [Function.update_noteq (show voice * 2 ≠ voice * 2 + 1 by omega),
      Function.update_same, Function.update_same]
  omega

lemma pitch_bend_voice_voices (s : YMState) (bend : Int) (i : Nat) :
    (pitch_bend_voice s bend i).voices = s.voices := by
  simp only [pitch_bend_voice]
  split
  · exact set_frequency_voices _ _ _
  · rfl

lemma pitch_bend_voice_programmed_ne (s : YMState) (bend : Int) (i v : Nat) (h : v ≠ i) :
    programmed_period (pitch_bend_voice s bend i) v = programmed_period s v := by
  simp only [pitch_bend_voice]
  split
  · simp only [programmed_period]
    rw [set_frequency_regs_ne _ _ _ _ (by omega) (by omega),
        set_frequency_regs_ne _ _ _ _ (by omega) (by omega)]
  · rfl

lemma pitch_bend_voice_programmed (s : YMState) (bend : Int) (i : Nat)
    (hi : i < 3) (ha : (s.voices.getD i zeroVoice).active = true) :
    programmed_period (pitch_bend_voice s bend i) i =
      ym2149_apply_pitch_bend (ym2149_note_to_freq (s.voices.getD i zeroVoice).midi_note) bend := by
  simp only [pitch_bend_voice, ha, if_true]
  exact set_frequency_programmed _ _ _ hi (by
    have := apb_range (ym2149_note_to_freq (s.voices.getD i zeroVoice).midi_note) bend
    omega)

/-- Claim C6: set_pitch_bend programs, for every active voice below 3, the
period base - (base * bend) / 72000 recomputed from the voice's stored note
with truncating division and clamped to [1, 4095]; the programmed value is
always within [1, 4095] (never 0), and bend 0 reproduces the unbent base
period exactly. -/
theorem claim6_pitch_bend (s : YMState) (bend : Int) (v : Nat)
    (hv : v < 3) (ha : (s.voices.getD v zeroVoice).active = true) :
    programmed_period (ym2149_set_pitch_bend s bend) v =
      ym2149_apply_pitch_bend (ym2149_note_to_freq (s.voices.getD v zeroVoice).midi_note) bend ∧
    1 ≤ programmed_period (ym2149_set_pitch_bend s bend) v ∧
    programmed_period (ym2149_set_pitch_bend s bend) v ≤ 4095 ∧
    (bend = 0 → programmed_period (ym2149_set_pitch_bend s bend) v =
      ym2149_note_to_freq (s.voices.getD v zeroVoice).midi_note) := by
  have hmain : programmed_period (ym2149_set_pitch_bend s bend) v =
      ym2149_apply_pitch_bend (ym2149_note_to_freq (s.voices.getD v zeroVoice).midi_note) bend := by
    show programmed_period
      (pitch_bend_voice (pitch_bend_voice (pitch_bend_voice s bend 0) bend 1) bend 2) v = _
    interval_cases v
    · rw [pitch_bend_voice_programmed_ne _ _ _ _ (by omega),
          pitch_bend_voice_programmed_ne _ _ _ _ (by omega)]
      exact pitch_bend_voice_programmed s bend 0 (by omega) ha
    · rw [pitch_bend_voice_programmed_ne _ _ _ _ (by omega)]
      rw [pitch_bend_voice_programmed _ bend 1 (by omega)
            (by rw [pitch_bend_voice_voices]; exact ha),
          pitch_bend_voice_voices]
    · rw [pitch_bend_voice_programmed _ bend 2 (by omega)
            (by rw [pitch_bend_voice_voices, pitch_bend_voice_voices]; exact ha),
          pitch_bend_voice_voices, pitch_bend_voice_voices]
  have hr := apb_range (ym2149_note_to_freq (s.voices.getD v zeroVoice).midi_note) bend
  refine ⟨hmain, by omega, by omega, ?_⟩
  intro h0
  subst h0
  rw [hmain]
  have := ntf_range (s.voices.getD v zeroVoice).midi_note
  exact apb_zero _ (by omega) (by omega)

/-- Witness for claim C6: after a note-on of MIDI note 60 at startup, the
full-scale upward bend 8191 is applied to voice 0. -/
theorem claim6_witness :
    programmed_period
        (ym2149_set_pitch_bend (midi_process_message initialState 0x90 60 100).ym 8191) 0 =
      ym2149_apply_pitch_bend
        (ym2149_note_to_freq
          (((midi_process_message initialState 0x90 60 100).ym.voices.getD 0 zeroVoice).midi_note))
        8191 ∧
    1 ≤ programmed_period
        (ym2149_set_pitch_bend (midi_process_message initialState 0x90 60 100).ym 8191) 0 ∧
    programmed_period
        (ym2149_set_pitch_bend (midi_process_message initialState 0x90 60 100).ym 8191) 0 ≤ 4095 ∧
    ((8191 : Int) = 0 → programmed_period
        (ym2149_set_pitch_bend (midi_process_message initialState 0x90 60 100).ym 8191) 0 =
      ym2149_note_to_freq
        (((midi_process_message initialState 0x90 60 100).ym.voices.getD 0 zeroVoice).midi_note)) :=
  claim6_pitch_bend (midi_process_message initialState 0x90 60 100).ym 8191 0
    (by decide) (by decide)

/-- Claim C2: allocate_voice scans the 3-voice array in ascending order and
returns the first inactive index; with every voice active it returns the
index of the minimal start_time, ties to the lowest index.  Concretely, three
note-on dispatches from the all-inactive startup state allocate the distinct
indices 0, 1, 2, and a fourth allocation while all three are active returns
index 0, whose start_time is minimal. -/
theorem claim2_voice_allocation (v0 v1 v2 : Voice) :
    (v0.active = false → allocate_voice [v0, v1, v2] = 0) ∧
    (v0.active = true → v1.active = false → allocate_voice [v0, v1, v2] = 1) ∧
    (v0.active = true → v1.active = true → v2.active = false →
      allocate_voice [v0, v1, v2] = 2) ∧
    (v0.active = true → v1.active = true → v2.active = true →
      allocate_voice [v0, v1, v2] < 3 ∧
      (∀ j, j < 3 →
        ([v0, v1, v2].getD (allocate_voice [v0, v1, v2]) zeroVoice).start_time ≤
          ([v0, v1, v2].getD j zeroVoice).start_time) ∧
      (∀ j, j < allocate_voice [v0, v1, v2] →
        ([v0, v1, v2].getD (allocate_voice [v0, v1, v2]) zeroVoice).start_time <
          ([v0, v1, v2].getD j zeroVoice).start_time)) ∧
    allocate_voice initialState.ym.voices = 0 ∧
    allocate_voice (applyMessages initialState [(0x90, 60, 100)]).ym.voices = 1 ∧
    allocate_voice
      (applyMessages initialState [(0x90, 60, 100), (0x90, 62, 100)]).ym.voices = 2 ∧
    ((applyMessages initialState
        [(0x90, 60, 100), (0x90, 62, 100), (0x90, 64, 100)]).ym.voices.all
      (fun v => v.active)) = true ∧
    allocate_voice (applyMessages initialState
      [(0x90, 60, 100), (0x90, 62, 100), (0x90, 64, 100)]).ym.voices = 0 ∧
    (∀ j, j < 3 →
      ((applyMessages initialState
          [(0x90, 60, 100), (0x90, 62, 100), (0x90, 64, 100)]).ym.voices.getD 0
          zeroVoice).start_time ≤
        ((applyMessages initialState
          [(0x90, 60, 100), (0x90, 62, 100), (0x90, 64, 100)]).ym.voices.getD j
          zeroVoice).start_time) := by
  refine ⟨?_, ?_, ?_, ?_, by decide, by decide, by decide, by decide, by decide, by decide⟩
  · intro h0
    simp [allocate_voice, List.findIdx?_cons, h0]
  · intro h0 h1
    simp [allocate_voice, List.findIdx?_cons, h0, h1]
  · intro h0 h1 h2
    simp [allocate_voice, List.findIdx?_cons, List.findIdx?_nil, h0, h1, h2]
  · intro h0 h1 h2
    have hall : allocate_voice [v0, v1, v2] =
        if v1.start_time < v0.start_time then
          (if v2.start_time < v1.start_time then 2 else 1)
        else (if v2.start_time < v0.start_time then 2 else 0) := by
      simp [allocate_voice, List.findIdx?_cons, List.findIdx?_nil, h0, h1, h2, oldestAux]
      split_ifs <;> rfl
    rw [hall]
    split_ifs with hA hB hB <;>
      refine ⟨by omega, ?_, ?_⟩ <;> intro j hj <;> interval_cases j <;>
      simp [List.getD] <;> omega

/-- Witness for the universally quantified part of claim C2: a concrete pool
with voice 1 free, and a concrete all-active pool stolen at minimal
start_time. -/
theorem claim2_witness :
    allocate_voice [⟨true, 60, 100, 0, 5⟩, ⟨false, 0, 0, 0, 0⟩, ⟨false, 0, 0, 0, 0⟩] = 1 ∧
    allocate_voice [⟨true, 60, 100, 0, 5⟩, ⟨true, 62, 100, 0, 3⟩, ⟨true, 64, 100, 0, 9⟩] < 3 ∧
    ([(⟨true, 60, 100, 0, 5⟩ : Voice), ⟨true, 62, 100, 0, 3⟩, ⟨true, 64, 100, 0, 9⟩].getD
        (allocate_voice [⟨true, 60, 100, 0, 5⟩, ⟨true, 62, 100, 0, 3⟩, ⟨true, 64, 100, 0, 9⟩])
        zeroVoice).start_time ≤
      ([(⟨true, 60, 100, 0, 5⟩ : Voice), ⟨true, 62, 100, 0, 3⟩, ⟨true, 64, 100, 0, 9⟩].getD 0
        zeroVoice).start_time := by
  have h1 := claim2_voice_allocation ⟨true, 60, 100, 0, 5⟩ ⟨false, 0, 0, 0, 0⟩ ⟨false, 0, 0, 0, 0⟩
  have h2 := claim2_voice_allocation ⟨true, 60, 100, 0, 5⟩ ⟨true, 62, 100, 0, 3⟩ ⟨true, 64, 100, 0, 9⟩
  exact ⟨h1.2.1 rfl rfl,
         (h2.2.2.2.1 rfl rfl rfl).1,
         (h2.2.2.2.1 rfl rfl rfl).2.1 0 (by decide)⟩

/-- Claim C3 counterexample: the state reached from startup by dispatching
two NoteOn messages for note 60 velocity 100 on channel 0 — with no
intervening note-off — has two active voices whose stored (note, channel)
pair is (60, 0), so the at-most-one invariant fails on a reachable state. -/
theorem claim3_counterexample :
    count_active_matches
      (applyMessages initialState [(0x90, 60, 100), (0x90, 60, 100)]).ym.voices 60 0 = 2 ∧
    ¬ (count_active_matches
      (applyMessages initialState [(0x90, 60, 100), (0x90, 60, 100)]).ym.voices 60 0 ≤ 1) := by
  decide

lemma findVoiceAux_spec (note ch : Nat) :
    ∀ (l : List Voice) (i : Nat),
      (findVoiceAux l note ch i ≠ 255 →
        ∃ k, k < l.length ∧ findVoiceAux l note ch i = i + k ∧
          voice_matches (l.getD k zeroVoice) note ch = true ∧
          ∀ j, j < k → voice_matches (l.getD j zeroVoice) note ch = false) ∧
      (findVoiceAux l note ch i = 255 → i + l.length ≤ 255 →
        ∀ k, k < l.length → voice_matches (l.getD k zeroVoice) note ch = false) := by
  intro l
  induction l with
  | nil =>
    intro i
    exact ⟨fun h => absurd rfl h, fun _ _ k hk => absurd hk (by simp)⟩
  | cons v rest ih =>
    intro i
    by_cases hm : voice_matches v note ch = true
    · have hm' : (v.active && (v.midi_note == note) && (v.channel == ch)) = true := hm
      have he : findVoiceAux (v :: rest) note ch i = i := by
        simp [findVoiceAux, hm']
      constructor
      · intro _
        refine ⟨0, by simp, by omega, by simpa [List.getD] using hm, ?_⟩
        intro j hj
        exact absurd hj (by omega)
      · intro h255 hlen
        exfalso
        rw [he] at h255
        simp only [List.length_cons] at hlen
        omega
    · have hm' : (v.active && (v.midi_note == note) && (v.channel == ch)) = false :=
        eq_false_of_ne_true hm
      have he : findVoiceAux (v :: rest) note ch i = findVoiceAux rest note ch (i + 1) := by
        simp [findVoiceAux, hm']
      constructor
      · intro h
        rw [he] at h
        obtain ⟨k, hk, hfk, hmk, hprev⟩ := (ih (i + 1)).1 h
        refine ⟨k + 1, by simp only [List.length_cons]; omega,
          by rw [he, hfk]; omega, by simpa [List.getD] using hmk, ?_⟩
        intro j hj
        cases j with
        | zero => simpa [List.getD] using eq_false_of_ne_true hm
        | succ j' => simpa [List.getD] using hprev j' (by omega)
      · intro h255 hlen k hk
        rw [he] at h255
        simp only [List.length_cons] at hlen
        cases k with
        | zero => simpa [List.getD] using eq_false_of_ne_true hm
        | succ k' =>
          simp only [List.length_cons] at hk
          simpa [List.getD] using (ih (i + 1)).2 h255 (by omega) k' (by omega)

/-- Claim C3 as amended: in reachable states more than one active voice can
match a given (note, channel) pair (two back-to-back NoteOns of the same note
activate two such voices), so the at-most-one invariant does not hold; the
targeting of find_voice_by_note is nonetheless deterministic: when it returns
a voice it is the lowest-index active voice whose stored note and channel
match, and when it returns the 255 sentinel no active voice matches. -/
theorem claim3_find_lowest_match (voices : List Voice) (note ch : Nat)
    (hlen : voices.length ≤ 255) :
    (find_voice_by_note voices note ch ≠ 255 →
      find_voice_by_note voices note ch < voices.length ∧
      voice_matches (voices.getD (find_voice_by_note voices note ch) zeroVoice) note ch = true ∧
      ∀ j, j < find_voice_by_note voices note ch →
        voice_matches (voices.getD j zeroVoice) note ch = false) ∧
    (find_voice_by_note voices note ch = 255 →
      ∀ k, k < voices.length → voice_matches (voices.getD k zeroVoice) note ch = false) := by
  constructor
  · intro h
    obtain ⟨k, hk, hfk, hmk, hprev⟩ := (findVoiceAux_spec note ch voices 0).1 h
    rw [show find_voice_by_note voices note ch = k from by
      simpa [find_voice_by_note] using hfk]
    exact ⟨hk, hmk, hprev⟩
  · intro h
    exact (findVoiceAux_spec note ch voices 0).2 h (by omega)

/-- Witness for the amended claim C3 on the duplicate-note reachable state:
find_voice_by_note targets voice 0, the lowest of the two matches. -/
theorem claim3_witness :
    find_voice_by_note
      (applyMessages initialState [(0x90, 60, 100), (0x90, 60, 100)]).ym.voices 60 0 <
      (applyMessages initialState [(0x90, 60, 100), (0x90, 60, 100)]).ym.voices.length ∧
    voice_matches
      ((applyMessages initialState [(0x90, 60, 100), (0x90, 60, 100)]).ym.voices.getD
        (find_voice_by_note
          (applyMessages initialState [(0x90, 60, 100), (0x90, 60, 100)]).ym.voices 60 0)
        zeroVoice) 60 0 = true := by
  have h := (claim3_find_lowest_match
    (applyMessages initialState [(0x90, 60, 100), (0x90, 60, 100)]).ym.voices 60 0
    (by decide)).1 (by decide)
  exact ⟨h.1, h.2.1⟩

end RCSynth
